import Mathlib

/-!
Shallow embedding of `src/server/server.js` of the shellshock-arena
repository (the authoritative two-player arena game server), with theorems
checking the specification's claims against the embedded code.

Conventions used throughout:
* JS numbers are embedded as `ℚ` for coordinates, velocities and times used
  in geometry, and as `ℤ` for integral quantities (health, points, shield,
  damage, millisecond timestamps).
* A test of the form `Math.sqrt(e) ⋈ t` with `t ≥ 0` on both sides is
  embedded as the equivalent `e ⋈ t^2` wherever that keeps a definition
  executable; the square-root form is recovered inside the theorems via
  `Real.sqrt`.
* The WebSocket/broadcast layer and `GameStatistics` are pure observers of
  the room state (they never feed back into it), so the messages themselves
  are not part of the state; the one observable output the claims need, the
  `gameOver` broadcast's `winner` field, is recorded in the room state as
  `lastGameOverWinner`.  The `setTimeout`-driven shield expiry is a deferred
  callback outside the intent-handling transitions modelled here.
-/

namespace Shellshock

/-- `gameConfig.arena.width`. -/
def arenaWidth : ℚ := 2000

/-- `gameConfig.arena.height`. -/
def arenaHeight : ℚ := 2000

/-- `gameConfig.player.size`. -/
def playerSize : ℚ := 30

/-- `gameConfig.player.speed`. -/
def playerSpeed : ℚ := 250

/-- `gameConfig.player.maxHealth`. -/
def maxHealth : ℤ := 100

/-- `gameConfig.player.reloadTime` (ms). -/
def reloadTime : ℤ := 1000

/-- `gameConfig.projectile.speed`. -/
def projectileSpeed : ℚ := 600

/-- `gameConfig.projectile.damage`. -/
def projectileDamage : ℤ := 5

/-- `gameConfig.projectile.size`. -/
def projectileSize : ℚ := 5

/-- `gameConfig.powerups.laser.damage`. -/
def laserDamage : ℤ := 15

/-- `gameConfig.powerups.explosive.damage`. -/
def explosiveDamage : ℤ := 20

/-- `gameConfig.powerups.explosive.radius`. -/
def explosiveRadius : ℚ := 100

/-- `gameConfig.powerups.shield.absorption`. -/
def shieldAbsorption : ℤ := 20

/-- The flat 20-point cost deducted in `handlePowerup`. -/
def powerupCost : ℤ := 20

/-- `gameConfig.player.startPositions[i]`; rooms never hold more than two
players, so only indices 0 and 1 occur. -/
def startPositionAt (i : ℕ) : ℚ × ℚ := if i = 0 then (200, 1000) else (1800, 1000)

/-- A cover rectangle.  Covers are instantiated with `health: 100`
(`GameRoom` constructor and `startGame`); the health field is never
decremented anywhere in the server — explosions remove covers outright. -/
structure Cover where
  x : ℚ
  y : ℚ
  width : ℚ
  height : ℚ
  id : String
  health : ℤ
deriving DecidableEq, Repr

/-- Helper matching `{...c, health: 100}` applied to a layout entry. -/
def mkCover (cx cy w h : ℚ) (idStr : String) : Cover :=
  { x := cx, y := cy, width := w, height := h, id := idStr, health := 100 }

/-- `gameConfig.cover.layouts`, instantiated with health 100 as done by the
`GameRoom` constructor and by `startGame`. -/
def initialCovers : List Cover :=
  [ mkCover 900 900 200 200 "center",
    mkCover 300 400 60 400 "corridor1",
    mkCover 1640 400 60 400 "corridor2",
    mkCover 300 1200 60 400 "corridor3",
    mkCover 1640 1200 60 400 "corridor4",
    mkCover 600 600 100 100 "cover1",
    mkCover 1300 600 100 100 "cover2",
    mkCover 600 1300 100 100 "cover3",
    mkCover 1300 1300 100 100 "cover4",
    mkCover 500 200 300 60 "wall1",
    mkCover 1200 200 300 60 "wall2",
    mkCover 500 1740 300 60 "wall3",
    mkCover 1200 1740 300 60 "wall4",
    mkCover 800 500 60 200 "maze1",
    mkCover 1140 500 60 200 "maze2",
    mkCover 800 1300 60 200 "maze3",
    mkCover 1140 1300 60 200 "maze4" ]

/-- The two powerup kinds that become a pending "next shot type"
(`player.nextShotType` is `null`, `'laser'` or `'explosive'`). -/
inductive ShotType
  | laser
  | explosive
deriving DecidableEq, Repr

/-- One occupant of a room (`GameRoom.addPlayer` literal).  The `ws`, `name`
and `rotation` fields, the derived `reloadProgress`, `velocity` and the
visibility flags are carried by the source object but are not read by any
operation a claim is about; they are omitted here.  `id` strings are
embedded as `ℕ`. -/
structure Player where
  pid : ℕ
  x : ℚ
  y : ℚ
  health : ℤ
  points : ℤ
  shield : ℤ
  reloading : Bool
  lastShot : ℤ
  usedPowerups : List ℕ
  nextShotType : Option ShotType
deriving DecidableEq, Repr

/-- A projectile (`handlePlayerShoot` literal; `id`/`color` omitted,
`type` is `kind`). -/
structure Projectile where
  ownerId : ℕ
  x : ℚ
  y : ℚ
  vx : ℚ
  vy : ℚ
  damage : ℤ
  kind : Option ShotType
  createdAt : ℤ
  exploded : Bool
deriving DecidableEq, Repr

/-- A transient explosion record (`gameState.explosions` entries). -/
structure Explosion where
  x : ℚ
  y : ℚ
  radius : ℚ
deriving DecidableEq, Repr

/-- The mutable state of one `GameRoom`.  `players` embeds the insertion-
ordered JS `Map` as a list (JS map keys are unique, which theorems assume
as a `Nodup` hypothesis where they need it).  `now` stands for `Date.now()`
at the current step.  `lastGameOverWinner` records the `winner` field of the
most recent `gameOver` broadcast (`none` = no such broadcast yet; `some none`
= a broadcast whose winner was absent, i.e. "no winner"). -/
structure RoomState where
  started : Bool
  players : List Player
  covers : List Cover
  projectiles : List Projectile
  explosions : List Explosion
  rematchVotes : List ℕ
  matchStartTime : Option ℤ
  matchEndTime : Option ℤ
  now : ℤ
  lastGameOverWinner : Option (Option ℕ)
  intervalRunning : Bool
deriving DecidableEq, Repr

/-- `this.players.get(id)` — lookup of an occupant by id. -/
def getPlayer (st : RoomState) (pid : ℕ) : Option Player :=
  st.players.find? (fun p => p.pid == pid)

/-- In-place mutation of the one map entry with key `pid` (JS object
mutation through the `Map`). -/
def updatePlayer (st : RoomState) (pid : ℕ) (f : Player → Player) : RoomState :=
  { st with players := st.players.map (fun p => if p.pid = pid then f p else p) }

/-- `GameRoom.endGame(winnerId)`: stop the tick interval, stamp
`matchEndTime`, broadcast `gameOver` with `winner: winnerId`, and set
`gameState.started = false`.  (The statistics payload of the broadcast is
derived data and not modelled.) -/
def endGame (st : RoomState) (winnerId : Option ℕ) : RoomState :=
  { st with
    intervalRunning := false,
    matchEndTime := some st.now,
    lastGameOverWinner := some winnerId,
    started := false }

/-- The shield absorption computed by `hitPlayer`: `absorbed =
min(actualDamage, player.shield)` inside the `if (player.shield > 0)`
guard, 0 otherwise. -/
def hpAbsorbed (target : Player) (damage : ℤ) : ℤ :=
  if 0 < target.shield then min damage target.shield else 0

/-- `GameRoom.hitPlayer(playerId, damage, attackerId)`.  Shield absorbs
first, remaining damage is subtracted from health, health is clamped to
`≥ 0`; the attacker (when present in the map and distinct from the victim)
gains `actualDamage` points; when the clamped health is `≤ 0` the game ends
with `attackerId` as winner.  `attackerId` is an `Option` because the JS
argument may be `undefined`/absent from the map.  `hitUpdate` is the
per-entry effect of one call on the players map, `hitPlayer` itself the
whole step. -/
def hitUpdate (target : Player) (damage : ℤ) (attackerId : Option ℕ) (playerId : ℕ)
    (p : Player) : Player :=
  if p.pid = playerId then
    { p with
      shield := p.shield - hpAbsorbed target damage,
      health := max 0 (target.health - (damage - hpAbsorbed target damage)) }
  else if attackerId = some p.pid then
    { p with points := p.points + (damage - hpAbsorbed target damage) }
  else p

def hitPlayer (st : RoomState) (playerId : ℕ) (damage : ℤ) (attackerId : Option ℕ) :
    RoomState :=
  match getPlayer st playerId with
  | none => st
  | some target =>
    let st' := { st with
      players := st.players.map (hitUpdate target damage attackerId playerId) }
    if max 0 (target.health - (damage - hpAbsorbed target damage)) ≤ 0 then
      endGame st' attackerId
    else st'

/-- Outcome record of an intent handler (`{ success, error }`). -/
structure IntentResult where
  success : Bool
  error : Option String
deriving DecidableEq, Repr

/-- `GameRoom.handlePowerup(playerId, powerupNum)`.  Faithful to the source
order: the 20-point deduction and the used-marking happen BEFORE the
`switch` that validates the powerup number, so an unknown number still
charges the player while reporting `success: false` (with no `error`
field).  The `setTimeout` that later clears the shield is a deferred
callback outside this transition. -/
def handlePowerup (st : RoomState) (playerId : ℕ) (powerupNum : ℕ) :
    RoomState × IntentResult :=
  match getPlayer st playerId with
  | none => (st, ⟨false, some "Player not found"⟩)
  | some player =>
    if powerupNum ∈ player.usedPowerups then
      (st, ⟨false, some "Powerup already used"⟩)
    else if player.points < powerupCost then
      (st, ⟨false, some "Not enough points"⟩)
    else
      let charged := updatePlayer st playerId (fun p =>
        { p with points := p.points - powerupCost,
                 usedPowerups := p.usedPowerups.insert powerupNum })
      match powerupNum with
      | 1 => (updatePlayer charged playerId
                (fun p => { p with nextShotType := some ShotType.laser }),
              ⟨true, none⟩)
      | 2 => (updatePlayer charged playerId
                (fun p => { p with nextShotType := some ShotType.explosive }),
              ⟨true, none⟩)
      | 3 => (updatePlayer charged playerId
                (fun p => { p with shield := shieldAbsorption }),
              ⟨true, none⟩)
      | _ => (charged, ⟨false, none⟩)

/-- The player-reset block of `handleRematchVote` (positions back to the
start layout, health/points/shield/used-powerups/next-shot/reload state
cleared) together with clearing of projectiles and explosions.  The
statistics object is also re-created there; statistics are derived
observers and not part of this state. -/
def rematchReset (st : RoomState) : RoomState :=
  { st with
    players := st.players.enum.map (fun ip =>
      { ip.2 with
        x := (startPositionAt ip.1).1,
        y := (startPositionAt ip.1).2,
        health := maxHealth,
        points := 0,
        shield := 0,
        usedPowerups := [],
        nextShotType := none,
        reloading := false,
        lastShot := 0 }),
    projectiles := [],
    explosions := [] }

/-- `GameRoom.startGame()`: requires exactly two occupants; marks the game
started, stamps `matchStartTime`, clears the rematch votes, restores the
cover layout with health 100, and starts the 60 Hz interval. -/
def startGame (st : RoomState) : RoomState :=
  if st.players.length ≠ 2 then st
  else
    { st with
      started := true,
      matchStartTime := some st.now,
      rematchVotes := [],
      covers := initialCovers,
      intervalRunning := true }

/-- `GameRoom.handleRematchVote(playerId)`.  Faithful to the source guard
`if (!this.gameState.started || !this.matchEndTime)`: the vote is rejected
unless `started` is true AND `matchEndTime` is set.  On two recorded votes
the room is fully reset and `startGame` is invoked. -/
def handleRematchVote (st : RoomState) (playerId : ℕ) : RoomState × IntentResult :=
  if st.started = false ∨ st.matchEndTime = none then
    (st, ⟨false, some "No game to rematch"⟩)
  else
    let st1 := { st with rematchVotes := st.rematchVotes.insert playerId }
    if st1.rematchVotes.length = 2 then
      (startGame (rematchReset st1), ⟨true, none⟩)
    else
      (st1, ⟨true, none⟩)

/-- `GameRoom.removePlayer(id)`: delete the map entry and clear the update
interval if one is running. -/
def removePlayer (st : RoomState) (pid : ℕ) : RoomState :=
  { st with
    players := st.players.filter (fun p => p.pid ≠ pid),
    intervalRunning := false }

/-- The `case 'leaveLobby'` branch of the message handler, viewed from the
room: the occupant is removed; an emptied room is destroyed (`none`),
otherwise only a `lobbyUpdate` occupancy broadcast is sent.  No phase
check, no `endGame`. -/
def leaveLobby (st : RoomState) (pid : ℕ) : Option RoomState :=
  let st' := removePlayer st pid
  if st'.players.length = 0 then none else some st'

/-- The `ws.on('close')` handler, viewed from the room: the occupant is
removed; an emptied room is destroyed (`none`); if the game is running the
first remaining occupant wins via `endGame`; otherwise only a `lobbyUpdate`
broadcast is sent. -/
def handleClose (st : RoomState) (pid : ℕ) : Option RoomState :=
  let st' := removePlayer st pid
  if st'.players.length = 0 then none
  else if st'.started then
    match st'.players.head? with
    | some remaining => some (endGame st' (some remaining.pid))
    | none => some st'
  else some st'

/-- An axis-aligned rectangle as passed to `checkRectCollision`. -/
structure Rect where
  x : ℚ
  y : ℚ
  width : ℚ
  height : ℚ
deriving DecidableEq, Repr

/-- The rectangle of a cover. -/
def Cover.toRect (c : Cover) : Rect :=
  { x := c.x, y := c.y, width := c.width, height := c.height }

/-- `GameRoom.checkRectCollision(rect1, rect2)`: strict-inequality AABB
overlap (touching edges do not collide). -/
def checkRectCollision (rect1 rect2 : Rect) : Prop :=
  rect1.x < rect2.x + rect2.width ∧
  rect1.x + rect1.width > rect2.x ∧
  rect1.y < rect2.y + rect2.height ∧
  rect1.y + rect1.height > rect2.y

instance (rect1 rect2 : Rect) : Decidable (checkRectCollision rect1 rect2) := by
  unfold checkRectCollision
  infer_instance

/-- The player's size-30 bounding square centered at `(cx, cy)` — the rect
literal `{ x: cx - halfSize, y: cy - halfSize, width: size, height: size }`
built by `handlePlayerMove`. -/
def playerSquare (cx cy : ℚ) : Rect :=
  { x := cx - playerSize / 2, y := cy - playerSize / 2,
    width := playerSize, height := playerSize }

/-- `GameRoom.handlePlayerMove(playerId, dx, dy, deltaTime)`.  Axis-
separated: the X displacement is accepted iff the new X keeps the square
inside the horizontal bounds and the square at (new X, old Y) collides with
no cover; the Y displacement is then tested at the (possibly updated) X.
The source's `for`-loop over covers setting `canMove* = false` is the
bounded universal here.  The rotation update (`Math.atan2`) and the
movement-statistics recording at the end of the source function do not
affect any field a claim reads and are omitted. -/
def handlePlayerMove (st : RoomState) (playerId : ℕ) (dx dy deltaTime : ℚ) :
    RoomState :=
  match getPlayer st playerId with
  | none => st
  | some player =>
    let speed := playerSpeed * deltaTime
    let newX := player.x + dx * speed
    let newY := player.y + dy * speed
    let halfSize := playerSize / 2
    let x1 :=
      if 0 ≤ newX - halfSize ∧ newX + halfSize ≤ arenaWidth then
        if ∀ c ∈ st.covers, ¬ checkRectCollision (playerSquare newX player.y) c.toRect then
          newX
        else player.x
      else player.x
    let y1 :=
      if 0 ≤ newY - halfSize ∧ newY + halfSize ≤ arenaHeight then
        if ∀ c ∈ st.covers, ¬ checkRectCollision (playerSquare x1 newY) c.toRect then
          newY
        else player.y
      else player.y
    updatePlayer st playerId (fun p => { p with x := x1, y := y1 })

/-- `GameRoom.checkProjectilePlayerCollision(projectile, player)`.  The
source compares `Math.sqrt(dx² + dy²) ≤ size/2 + projectileSize`; both
sides are nonnegative, so this is the squared comparison below
(`size/2 + projectileSize = 20`). -/
def checkProjectilePlayerCollision (proj : Projectile) (player : Player) : Bool :=
  decide ((proj.x - player.x) ^ 2 + (proj.y - player.y) ^ 2 ≤
    (playerSize / 2 + projectileSize) ^ 2)

/-- The player scan of the projectile-collision step of `GameRoom.update`:
the first occupant that is NOT the projectile's owner and collides with the
projectile (`id !== proj.ownerId && checkProjectilePlayerCollision`). -/
def projectilePlayerHit (players : List Player) (proj : Projectile) : Option ℕ :=
  (players.find? (fun p => !(p.pid == proj.ownerId) &&
    checkProjectilePlayerCollision proj p)).map (fun p => p.pid)

/-- The explosion damage formula of `GameRoom.explode` as a function of the
Euclidean distance `d` from the center:
`Math.floor(gameConfig.powerups.explosive.damage * (1 - distance / radius))`. -/
noncomputable def explosionDamageAt (d : ℝ) : ℤ :=
  ⌊(explosiveDamage : ℝ) * (1 - d / (explosiveRadius : ℝ))⌋

/-- The damage `GameRoom.explode` actually applies to an occupant at
distance `d`: the formula value inside `if (distance <= radius)`, and only
when it is positive (`if (damage > 0)`); otherwise nothing. -/
noncomputable def appliedExplosionDamage (d : ℝ) : ℤ :=
  if d ≤ (explosiveRadius : ℝ) then
    if 0 < explosionDamageAt d then explosionDamageAt d else 0
  else 0

/-- The squared distance from the explosion center `(x, y)` to the closest
point of a cover's rectangle, as computed in the cover-filter of
`GameRoom.explode` (`closestX`/`closestY` clamping). -/
def coverExplosionDistSq (c : Cover) (x y : ℚ) : ℚ :=
  let closestX := max c.x (min x (c.x + c.width))
  let closestY := max c.y (min y (c.y + c.height))
  (x - closestX) ^ 2 + (y - closestY) ^ 2

/-- The cover-filter of `GameRoom.explode`: a cover survives iff
`Math.sqrt(distSq) < radius` is false; both sides nonnegative, so the test
is the squared comparison below. -/
def removeCovers (covers : List Cover) (x y : ℚ) : List Cover :=
  covers.filter (fun c => !(decide (coverExplosionDistSq c x y < explosiveRadius ^ 2)))

/-- The player-damage loop of `GameRoom.explode`: every occupant — the
explosion's owner included — whose distance from the center is at most the
radius takes the floor-falloff damage when that damage is positive.
`distance <= radius` is embedded as the squared comparison; the damage
value itself needs the real square root.  `hitPlayer` mutates only
health/shield/points and phase fields, never positions, so folding over the
snapshot of ids is the source's iteration over the live map. -/
noncomputable def explodeDamagePlayers (st : RoomState) (x y : ℚ) (ownerId : ℕ) :
    RoomState :=
  (st.players.map (fun p => p.pid)).foldl (fun s pid =>
    match getPlayer s pid with
    | none => s
    | some p =>
      let dsq : ℚ := (p.x - x) ^ 2 + (p.y - y) ^ 2
      if dsq ≤ explosiveRadius ^ 2 then
        if 0 < explosionDamageAt (Real.sqrt (dsq : ℝ)) then
          hitPlayer s pid (explosionDamageAt (Real.sqrt (dsq : ℝ))) (some ownerId)
        else s
      else s) st

/-- `GameRoom.explode(x, y, ownerId)`: push the visual explosion record,
damage every occupant in radius (owner included), then drop every cover
whose closest point is strictly within the radius. -/
noncomputable def explode (st : RoomState) (x y : ℚ) (ownerId : ℕ) : RoomState :=
  let st1 := { st with
    explosions := st.explosions ++ [{ x := x, y := y, radius := explosiveRadius }] }
  let st2 := explodeDamagePlayers st1 x y ownerId
  { st2 with covers := removeCovers st2.covers x y }

/-- The projectile-vs-player branch of `GameRoom.update` (the body of
`if (id !== proj.ownerId && checkProjectilePlayerCollision(...))`): an
unexploded explosive projectile explodes at its position; any other
projectile damages the hit occupant directly. -/
noncomputable def applyProjectilePlayerCollision (st : RoomState) (proj : Projectile) :
    RoomState :=
  match projectilePlayerHit st.players proj with
  | none => st
  | some pid =>
    if proj.kind = some ShotType.explosive ∧ proj.exploded = false then
      explode st proj.x proj.y proj.ownerId
    else
      hitPlayer st pid proj.damage (some proj.ownerId)

/-- `maxDistance / steps` of `GameRoom.shootLaser`:
`Math.sqrt(width² + height²) / 100`. -/
noncomputable def laserStepDistance : ℝ :=
  Real.sqrt ((arenaWidth : ℝ) ^ 2 + (arenaHeight : ℝ) ^ 2) / 100

/-- Containment of the laser sample point in a cover rectangle (the cover
check inside `shootLaser`). -/
def laserPointInCover (cx cy : ℝ) (c : Cover) : Prop :=
  (c.x : ℝ) ≤ cx ∧ cx ≤ (c.x : ℝ) + (c.width : ℝ) ∧
  (c.y : ℝ) ≤ cy ∧ cy ≤ (c.y : ℝ) + (c.height : ℝ)

noncomputable instance (cx cy : ℝ) (c : Cover) :
    Decidable (laserPointInCover cx cy c) := by
  unfold laserPointInCover
  infer_instance

/-- The player check inside one step of the `shootLaser` raycast: walk the
occupant list, skip the shooter (`if (id === player.id) continue`), and hit
the first occupant within `size / 2 = 15` of the sample point
(`Math.sqrt(...) <= 15`). -/
noncomputable def laserFindHit (shooterId : ℕ) (cx cy : ℝ) :
    List Player → Option ℕ
  | [] => none
  | p :: rest =>
    if p.pid = shooterId then laserFindHit shooterId cx cy rest
    else if Real.sqrt ((cx - (p.x : ℝ)) ^ 2 + (cy - (p.y : ℝ)) ^ 2) ≤
        (playerSize : ℝ) / 2 then
      some p.pid
    else laserFindHit shooterId cx cy rest

/-- The raycast loop of `GameRoom.shootLaser`, from step `i` with the given
remaining step budget (the source runs `i = 1..100`): out-of-bounds aborts,
a cover containing the sample point aborts, the first occupant hit ends the
scan with its id. -/
noncomputable def laserScanAux (covers : List Cover) (players : List Player)
    (shooterId : ℕ) (sx sy angle : ℝ) : ℕ → ℕ → Option ℕ
  | _, 0 => none
  | i, fuel + 1 =>
    let checkX := sx + Real.cos angle * (laserStepDistance * i)
    let checkY := sy + Real.sin angle * (laserStepDistance * i)
    if checkX < 0 ∨ (arenaWidth : ℝ) < checkX ∨ checkY < 0 ∨ (arenaHeight : ℝ) < checkY then
      none
    else if ∃ c ∈ covers, laserPointInCover checkX checkY c then
      none
    else
      match laserFindHit shooterId checkX checkY players with
      | some t => some t
      | none => laserScanAux covers players shooterId sx sy angle (i + 1) fuel

/-- `GameRoom.shootLaser(player, angle, ...)`: run the raycast from the
shooter's position; a hit applies `laserDamage` to the hit occupant with
the shooter as attacker. -/
noncomputable def shootLaser (st : RoomState) (shooterId : ℕ) (angle : ℝ) : RoomState :=
  match getPlayer st shooterId with
  | none => st
  | some shooter =>
    match laserScanAux st.covers st.players shooterId (shooter.x : ℝ) (shooter.y : ℝ)
        angle 1 100 with
    | some t => hitPlayer st t laserDamage (some shooterId)
    | none => st

/-! Supporting lemmas about the embedded operations. -/

lemma find?_pid_map (l : List Player) (g : Player → Player)
    (hg : ∀ p, (g p).pid = p.pid) (k : ℕ) :
    (l.map g).find? (fun p => p.pid == k) = (l.find? (fun p => p.pid == k)).map g := by
  induction l with
  | nil => rfl
  | cons a l ih =>
    rw [List.map_cons]
    by_cases hk : a.pid = k
    · rw [List.find?_cons_of_pos _ (by simp [hg, hk]),
        List.find?_cons_of_pos _ (by simp [hk]), Option.map_some']
    · rw [List.find?_cons_of_neg _ (by simp [hg, hk]),
        List.find?_cons_of_neg _ (by simp [hk]), ih]

lemma getPlayer_players_map (st : RoomState) (g : Player → Player)
    (hg : ∀ p, (g p).pid = p.pid) (k : ℕ) :
    getPlayer { st with players := st.players.map g } k = (getPlayer st k).map g :=
  find?_pid_map st.players g hg k

lemma getPlayer_pid {st : RoomState} {k : ℕ} {p : Player}
    (h : getPlayer st k = some p) : p.pid = k := by
  have := List.find?_some h
  simpa using this

lemma getPlayer_mem {st : RoomState} {k : ℕ} {p : Player}
    (h : getPlayer st k = some p) : p ∈ st.players :=
  List.mem_of_find?_eq_some h

lemma hitPlayer_covers (st : RoomState) (playerId : ℕ) (damage : ℤ)
    (attackerId : Option ℕ) :
    (hitPlayer st playerId damage attackerId).covers = st.covers := by
  unfold hitPlayer
  cases h : getPlayer st playerId with
  | none => rfl
  | some target =>
    dsimp only
    split <;> rfl

lemma hitUpdate_pid (target : Player) (damage : ℤ) (attackerId : Option ℕ)
    (playerId : ℕ) (p : Player) :
    (hitUpdate target damage attackerId playerId p).pid = p.pid := by
  unfold hitUpdate
  split_ifs <;> rfl

lemma getPlayer_endGame (st : RoomState) (w : Option ℕ) (k : ℕ) :
    getPlayer (endGame st w) k = getPlayer st k := rfl

lemma getPlayer_hitPlayer_self (st : RoomState) (playerId : ℕ) (damage : ℤ)
    (attackerId : Option ℕ) (target : Player)
    (h : getPlayer st playerId = some target) :
    getPlayer (hitPlayer st playerId damage attackerId) playerId =
      some { target with
        shield := target.shield - hpAbsorbed target damage,
        health := max 0 (target.health - (damage - hpAbsorbed target damage)) } := by
  have hpid : target.pid = playerId := getPlayer_pid h
  have hmap := getPlayer_players_map st
    (hitUpdate target damage attackerId playerId)
    (hitUpdate_pid target damage attackerId playerId) playerId
  unfold hitPlayer
  rw [h]
  dsimp only
  split <;>
    try rw [getPlayer_endGame]
  all_goals
    rw [hmap, h, Option.map_some']
    unfold hitUpdate
    rw [if_pos hpid]

lemma getPlayer_hitPlayer_other (st : RoomState) (playerId : ℕ) (damage : ℤ)
    (attackerId : Option ℕ) (oid : ℕ) (hne : oid ≠ playerId) :
    (getPlayer (hitPlayer st playerId damage attackerId) oid).map
        (fun p => (p.health, p.shield)) =
      (getPlayer st oid).map (fun p => (p.health, p.shield)) := by
  unfold hitPlayer
  cases h : getPlayer st playerId with
  | none => rfl
  | some target =>
    dsimp only
    have hmap := getPlayer_players_map st
      (hitUpdate target damage attackerId playerId)
      (hitUpdate_pid target damage attackerId playerId) oid
    have hval : ∀ q : Player, q.pid = oid →
        ((hitUpdate target damage attackerId playerId q).health,
         (hitUpdate target damage attackerId playerId q).shield) =
          (q.health, q.shield) := by
      intro q hq
      unfold hitUpdate
      rw [if_neg (by rw [hq]; exact hne)]
      split_ifs <;> rfl
    split <;>
      try rw [getPlayer_endGame]
    all_goals
      rw [hmap]
      cases hq : getPlayer st oid with
      | none => rfl
      | some q =>
        rw [Option.map_some', Option.map_some', Option.map_some']
        rw [hval q (getPlayer_pid hq)]

/-! Concrete rooms used by the closed theorems and witnesses below. -/

/-- A fresh occupant as built by `addPlayer`, with the listed overrides. -/
def mkPlayer (pid : ℕ) (x y : ℚ) (health points shield : ℤ) : Player :=
  { pid := pid, x := x, y := y, health := health, points := points,
    shield := shield, reloading := false, lastShot := 0,
    usedPowerups := [], nextShotType := none }

/-- A small concrete room (empty cover set keeps evaluation light). -/
def mkRoom (players : List Player) (started : Bool) (matchEndTime : Option ℤ) :
    RoomState :=
  { started := started, players := players, covers := [], projectiles := [],
    explosions := [], rematchVotes := [], matchStartTime := none,
    matchEndTime := matchEndTime, now := 0, lastGameOverWinner := none,
    intervalRunning := started }

/-- An active two-player room just before a match-ending event. -/
def activeRoom : RoomState :=
  mkRoom [mkPlayer 1 200 1000 80 10 0, mkPlayer 2 1800 1000 90 5 0] true none

/-- A two-player room whose match has not started (Forming/Ready). -/
def readyRoom : RoomState :=
  mkRoom [mkPlayer 1 200 1000 100 0 0, mkPlayer 2 1800 1000 100 0 0] false none

/-- An active room whose first occupant is at 5 health with no shield. -/
def dyingRoom : RoomState :=
  mkRoom [mkPlayer 1 200 1000 5 0 0, mkPlayer 2 1800 1000 100 0 0] true none

/-- An active room whose first occupant has 3 health and no shield. -/
def clampRoom : RoomState :=
  mkRoom [mkPlayer 1 200 1000 3 0 0, mkPlayer 2 1800 1000 100 0 0] true none

/-- An active room whose first occupant has 30 health and 12 shield. -/
def shieldRoom : RoomState :=
  mkRoom [mkPlayer 1 200 1000 30 0 12, mkPlayer 2 1800 1000 100 0 0] true none

/-- An active room whose first occupant holds exactly 20 points. -/
def powerupRoom : RoomState :=
  mkRoom [mkPlayer 1 200 1000 100 20 0, mkPlayer 2 1800 1000 100 0 0] true none

/-! The claims. -/

/-- C1 (the code contradicts it): after `endGame` the room has
`started = false`, so `handleRematchVote`'s guard
`if (!this.gameState.started || !this.matchEndTime)` rejects EVERY
rematch vote with "No game to rematch" and records nothing — the
first occupant's vote does not put the room in a rematch-pending state,
and the full-reset-and-restart block of the handler is unreachable.
This theorem evaluates the embedded handler on a just-ended room, for
both occupants. -/
theorem rematch_vote_dead_after_end :
    (endGame activeRoom (some 2)).started = false ∧
    (endGame activeRoom (some 2)).matchEndTime = some 0 ∧
    handleRematchVote (endGame activeRoom (some 2)) 1 =
      (endGame activeRoom (some 2), ⟨false, some "No game to rematch"⟩) ∧
    handleRematchVote (endGame activeRoom (some 2)) 2 =
      (endGame activeRoom (some 2), ⟨false, some "No game to rematch"⟩) :=
  ⟨rfl, rfl, rfl, rfl⟩

/-- C3 (the code contradicts it): `handlePowerup` deducts the 20-point
cost and marks the id used BEFORE validating the id, so the rejected
intent `usePowerup 4` (id outside {1,2,3}, `success: false`, no error
reason) still mutates the player: points drop from 20 to 0 and id 4 is
recorded as used. -/
theorem invalid_powerup_mutates :
    (handlePowerup powerupRoom 1 4).2 = ⟨false, none⟩ ∧
    (getPlayer powerupRoom 1).map (fun p => p.points) = some 20 ∧
    (getPlayer (handlePowerup powerupRoom 1 4).1 1).map (fun p => p.points) = some 0 ∧
    (getPlayer (handlePowerup powerupRoom 1 4).1 1).map (fun p => p.usedPowerups) =
      some [4] :=
  ⟨rfl, rfl, rfl, rfl⟩

/-- C4 counterexample: a `leaveLobby` intent while the room is Active does
NOT transition the room to Ended — the room stays `started = true` with no
`matchEndTime` and no `gameOver` winner; only the `close` (disconnect)
path ends the match. -/
theorem leave_intent_active_counterexample :
    activeRoom.started = true ∧
    (leaveLobby activeRoom 1).map (fun r => r.started) = some true ∧
    (leaveLobby activeRoom 1).map (fun r => r.matchEndTime) = some none ∧
    (leaveLobby activeRoom 1).map (fun r => r.lastGameOverWinner) = some none :=
  ⟨rfl, rfl, rfl, rfl⟩

/-- C4 (amended): a DISCONNECT while the room is Active immediately ends
the match with the first remaining occupant recorded as winner; a
`leaveLobby` intent only removes the occupant (and stops the tick
interval) without any phase transition; while the room is not started
(Forming/Ready) both paths agree and only update occupancy. -/
theorem leave_and_disconnect_transitions (st : RoomState) (pid : ℕ) :
    (st.started = true →
      ∀ q qs, (removePlayer st pid).players = q :: qs →
        handleClose st pid = some (endGame (removePlayer st pid) (some q.pid)) ∧
        (endGame (removePlayer st pid) (some q.pid)).started = false ∧
        (endGame (removePlayer st pid) (some q.pid)).lastGameOverWinner =
          some (some q.pid)) ∧
    (leaveLobby st pid =
      (if (removePlayer st pid).players.length = 0 then none
       else some (removePlayer st pid))) ∧
    (st.started = false → handleClose st pid = leaveLobby st pid) := by
  refine ⟨?_, rfl, ?_⟩
  · intro hs q qs hrem
    refine ⟨?_, rfl, rfl⟩
    have hlen : ¬ (removePlayer st pid).players.length = 0 := by
      rw [hrem]; simp
    have hst : (removePlayer st pid).started = true := hs
    unfold handleClose
    rw [if_neg hlen, if_pos hst, hrem]
    rfl
  · intro hs
    have hst : (removePlayer st pid).started = false := hs
    unfold handleClose leaveLobby
    by_cases hlen : (removePlayer st pid).players.length = 0
    · rw [if_pos hlen, if_pos hlen]
    · rw [if_neg hlen, if_neg hlen, hst]
      rfl

/-- C4 witness: the amended theorem applied to a concrete active room
(disconnect of occupant 1 crowns occupant 2) and to a concrete
Forming/Ready room. -/
theorem leave_and_disconnect_transitions_witness :
    handleClose activeRoom 1 =
      some (endGame (removePlayer activeRoom 1) (some 2)) ∧
    handleClose readyRoom 1 = leaveLobby readyRoom 1 := by
  refine ⟨?_, ?_⟩
  · exact ((leave_and_disconnect_transitions activeRoom 1).1 rfl
      (mkPlayer 2 1800 1000 90 5 0) [] rfl).1
  · exact (leave_and_disconnect_transitions readyRoom 1).2.2 rfl

/-- C5 counterexample: with health 3, shield 0 and incoming damage 10, the
resulting health loss is 3 (health is clamped at 0), not
`max(0, D − S) = 10` as the claim states for every damage application. -/
theorem shield_health_loss_counterexample :
    (getPlayer clampRoom 1).map (fun p => (p.health, p.shield)) = some (3, 0) ∧
    (getPlayer (hitPlayer clampRoom 1 10 (some 2)) 1).map
      (fun p => (p.health, p.shield)) = some (0, 0) ∧
    ((3 : ℤ) - 0 ≠ max 0 (10 - 0)) := by
  refine ⟨rfl, rfl, by norm_num⟩

/-- C5 (amended): for a damage application with `0 ≤ D` on a target with
shield `0 ≤ S` and health `H`, the resulting shield is `max(0, S − D)` and
the resulting health is `max(0, H − max(0, D − S))` — the health loss is
`max(0, D − S)` capped by the remaining health; shield is consumed before
health. -/
theorem shield_before_health (st : RoomState) (playerId : ℕ) (damage : ℤ)
    (attackerId : Option ℕ) (p : Player)
    (h : getPlayer st playerId = some p) (hdmg : 0 ≤ damage) (hsh : 0 ≤ p.shield) :
    getPlayer (hitPlayer st playerId damage attackerId) playerId =
      some { p with
        shield := max 0 (p.shield - damage),
        health := max 0 (p.health - max 0 (damage - p.shield)) } := by
  rw [getPlayer_hitPlayer_self st playerId damage attackerId p h]
  have h1 : p.shield - hpAbsorbed p damage = max 0 (p.shield - damage) := by
    unfold hpAbsorbed; split_ifs <;> omega
  have h2 : damage - hpAbsorbed p damage = max 0 (damage - p.shield) := by
    unfold hpAbsorbed; split_ifs <;> omega
  rw [h1, h2]

/-- C5 witness: the amended theorem at health 30, shield 12, damage 20:
shield 12 → 0, health 30 → 22. -/
theorem shield_before_health_witness :
    getPlayer shieldRoom 1 = some (mkPlayer 1 200 1000 30 0 12) ∧
    (0 : ℤ) ≤ 20 ∧ (0 : ℤ) ≤ (mkPlayer 1 200 1000 30 0 12).shield ∧
    getPlayer (hitPlayer shieldRoom 1 20 (some 2)) 1 =
      some { mkPlayer 1 200 1000 30 0 12 with
        shield := max 0 (12 - 20),
        health := max 0 (30 - max 0 (20 - 12)) } := by
  refine ⟨rfl, by norm_num, by decide, ?_⟩
  exact shield_before_health shieldRoom 1 20 (some 2) (mkPlayer 1 200 1000 30 0 12)
    rfl (by norm_num) (by decide)

/-- C2 counterexample: a fatal self-inflicted hit (attacker = dying
occupant, as an explosion at one's own feet produces) records the dying
occupant as winner, not "no winner" (`winner` absent) as the claim
states. -/
theorem selfkill_winner_counterexample :
    (hitPlayer dyingRoom 1 10 (some 1)).started = false ∧
    (hitPlayer dyingRoom 1 10 (some 1)).lastGameOverWinner = some (some 1) ∧
    some (some 1) ≠ some (none : Option ℕ) := by
  refine ⟨rfl, rfl, by simp⟩

/-- C2 (amended): whenever a damage application drives an occupant's
health from positive to exactly 0, the room transitions to Ended in that
very call — the whole call equals a single `endGame` on the updated
players — and the recorded winner is the attacker id passed to the damage
application, whoever it is: the other occupant, the dying occupant itself
on self-inflicted fatal damage, or "no winner" exactly when the attacker
id is absent; winner resolution is total and never crashes. -/
theorem fatal_hit_ends_match (st : RoomState) (playerId : ℕ) (damage : ℤ)
    (attackerId : Option ℕ) (p : Player)
    (h : getPlayer st playerId = some p) (hpos : 0 < p.health)
    (hfatal : p.health ≤ damage - hpAbsorbed p damage) :
    hitPlayer st playerId damage attackerId =
      endGame
        { st with players := st.players.map (hitUpdate p damage attackerId playerId) }
        attackerId ∧
    (hitPlayer st playerId damage attackerId).started = false ∧
    (hitPlayer st playerId damage attackerId).matchEndTime = some st.now ∧
    (hitPlayer st playerId damage attackerId).lastGameOverWinner = some attackerId := by
  have hcond : max 0 (p.health - (damage - hpAbsorbed p damage)) ≤ 0 := by omega
  have hmain : hitPlayer st playerId damage attackerId =
      endGame
        { st with players := st.players.map (hitUpdate p damage attackerId playerId) }
        attackerId := by
    unfold hitPlayer
    rw [h]
    dsimp only
    rw [if_pos hcond]
  refine ⟨hmain, ?_, ?_, ?_⟩ <;> rw [hmain] <;> rfl

/-- C2 witness: the amended theorem on a concrete room — occupant 1 at
health 5 takes 7 damage from occupant 2; the room ends with winner 2. -/
theorem fatal_hit_ends_match_witness :
    (0 : ℤ) < 5 ∧
    (hitPlayer dyingRoom 1 7 (some 2)).started = false ∧
    (hitPlayer dyingRoom 1 7 (some 2)).lastGameOverWinner = some (some 2) := by
  have h := fatal_hit_ends_match dyingRoom 1 7 (some 2) (mkPlayer 1 200 1000 5 0 0)
    rfl (by decide) (by decide)
  exact ⟨by norm_num, h.2.1, h.2.2.2⟩

/-! C7: the health/points invariants. -/

/-- The per-player invariant of C7: health within `[0, maxHealth]`,
nonnegative points (and the auxiliary nonnegative shield that the health
computation relies on). -/
def PlayerInv (p : Player) : Prop :=
  0 ≤ p.health ∧ p.health ≤ maxHealth ∧ 0 ≤ p.points ∧ 0 ≤ p.shield

instance (p : Player) : Decidable (PlayerInv p) := by
  unfold PlayerInv
  infer_instance

/-- The room-wide invariant of C7. -/
def RoomInv (st : RoomState) : Prop := ∀ p ∈ st.players, PlayerInv p

instance (st : RoomState) : Decidable (RoomInv st) := by
  unfold RoomInv
  exact List.decidableBAll _ _

lemma eq_of_mem_pid {l : List Player} (hn : (l.map Player.pid).Nodup)
    {p q : Player} (hp : p ∈ l) (hq : q ∈ l) (h : p.pid = q.pid) : p = q :=
  List.inj_on_of_nodup_map hn hp hq h

lemma roomInv_updatePlayer (st : RoomState) (pid : ℕ) (f : Player → Player)
    (hinv : RoomInv st)
    (hf : ∀ p ∈ st.players, p.pid = pid → PlayerInv (f p)) :
    RoomInv (updatePlayer st pid f) := by
  intro q hq
  unfold updatePlayer at hq
  simp only [List.mem_map] at hq
  obtain ⟨p, hp, rfl⟩ := hq
  by_cases hpp : p.pid = pid
  · rw [if_pos hpp]
    exact hf p hp hpp
  · rw [if_neg hpp]
    exact hinv p hp

lemma roomInv_hitPlayer (st : RoomState) (playerId : ℕ) (damage : ℤ)
    (attackerId : Option ℕ) (hn : (st.players.map Player.pid).Nodup)
    (hinv : RoomInv st) (hdmg : 0 ≤ damage) :
    RoomInv (hitPlayer st playerId damage attackerId) := by
  unfold hitPlayer
  cases h : getPlayer st playerId with
  | none => exact hinv
  | some target =>
    dsimp only
    have htmem := getPlayer_mem h
    have htpid := getPlayer_pid h
    have htinv := hinv target htmem
    unfold PlayerInv at htinv
    have habs1 : 0 ≤ hpAbsorbed target damage := by
      unfold hpAbsorbed; split_ifs <;> omega
    have habs2 : hpAbsorbed target damage ≤ damage := by
      unfold hpAbsorbed; split_ifs <;> omega
    have habs3 : hpAbsorbed target damage ≤ target.shield := by
      unfold hpAbsorbed; split_ifs <;> omega
    have hmain : RoomInv { st with
        players := st.players.map (hitUpdate target damage attackerId playerId) } := by
      intro q hq
      simp only [List.mem_map] at hq
      obtain ⟨p, hp, rfl⟩ := hq
      have hpinv := hinv p hp
      unfold PlayerInv at hpinv
      unfold hitUpdate
      split_ifs with h1 h2
      · have hpt : p = target :=
          eq_of_mem_pid hn hp htmem (h1.trans htpid.symm)
        subst hpt
        unfold PlayerInv
        dsimp only
        refine ⟨?_, ?_, ?_, ?_⟩ <;> omega
      · unfold PlayerInv
        dsimp only
        refine ⟨?_, ?_, ?_, ?_⟩ <;> omega
      · exact hpinv
    split
    · exact fun p hp => hmain p hp
    · exact hmain

lemma roomInv_handlePowerup (st : RoomState) (playerId powerupNum : ℕ)
    (hn : (st.players.map Player.pid).Nodup) (hinv : RoomInv st) :
    RoomInv (handlePowerup st playerId powerupNum).1 := by
  unfold handlePowerup
  cases h : getPlayer st playerId with
  | none => exact hinv
  | some player =>
    dsimp only
    split_ifs with h1 h2
    · exact hinv
    · exact hinv
    · have hmem := getPlayer_mem h
      have hpid := getPlayer_pid h
      have hpinv := hinv player hmem
      have hcharged : RoomInv (updatePlayer st playerId (fun p =>
          { p with points := p.points - powerupCost,
                   usedPowerups := p.usedPowerups.insert powerupNum })) := by
        apply roomInv_updatePlayer _ _ _ hinv
        intro p hp hpp
        have hpt : p = player := eq_of_mem_pid hn hp hmem (hpp.trans hpid.symm)
        subst hpt
        unfold PlayerInv at hpinv ⊢
        dsimp only
        refine ⟨hpinv.1, hpinv.2.1, ?_, hpinv.2.2.2⟩
        omega
      rcases powerupNum with _ | _ | _ | _ | k
      · exact hcharged
      · refine roomInv_updatePlayer _ _ _ hcharged ?_
        intro q hq _
        have hqinv := hcharged q hq
        unfold PlayerInv at hqinv ⊢
        exact hqinv
      · refine roomInv_updatePlayer _ _ _ hcharged ?_
        intro q hq _
        have hqinv := hcharged q hq
        unfold PlayerInv at hqinv ⊢
        exact hqinv
      · refine roomInv_updatePlayer _ _ _ hcharged ?_
        intro q hq _
        have hqinv := hcharged q hq
        unfold PlayerInv at hqinv ⊢
        dsimp only
        refine ⟨hqinv.1, hqinv.2.1, hqinv.2.2.1, ?_⟩
        unfold shieldAbsorption
        norm_num
      · exact hcharged

lemma roomInv_rematchReset (st : RoomState) : RoomInv (rematchReset st) := by
  intro q hq
  unfold rematchReset at hq
  simp only [List.mem_map] at hq
  obtain ⟨ip, _, rfl⟩ := hq
  unfold PlayerInv
  dsimp only
  refine ⟨?_, le_refl _, le_refl _, le_refl _⟩
  unfold maxHealth
  norm_num

/-- C7: on any room state whose occupants satisfy the invariant
(`0 ≤ health ≤ maxHealth`, `0 ≤ points`, `0 ≤ shield`), every operation of
the claim preserves it: a damage application with nonnegative damage (all
call sites pass 5, 15, 20 or a positive floor value), a powerup activation
(whose 20-point deduction happens only after the `points ≥ 20` check), and
the rematch reset.  The `Nodup` hypothesis is the uniqueness of JS map
keys. -/
theorem health_points_invariants (st : RoomState) (playerId powerupNum : ℕ)
    (damage : ℤ) (attackerId : Option ℕ)
    (hn : (st.players.map Player.pid).Nodup) (hinv : RoomInv st) :
    (0 ≤ damage → RoomInv (hitPlayer st playerId damage attackerId)) ∧
    RoomInv (handlePowerup st playerId powerupNum).1 ∧
    RoomInv (rematchReset st) :=
  ⟨fun hdmg => roomInv_hitPlayer st playerId damage attackerId hn hinv hdmg,
   roomInv_handlePowerup st playerId powerupNum hn hinv,
   roomInv_rematchReset st⟩

/-- C7 witness: the invariant theorem applied to concrete rooms — a
5-damage hit, a shield powerup purchase, and a rematch reset. -/
theorem health_points_invariants_witness :
    RoomInv (hitPlayer activeRoom 1 5 (some 2)) ∧
    RoomInv (handlePowerup powerupRoom 1 3).1 ∧
    RoomInv (rematchReset activeRoom) := by
  have h1 := health_points_invariants activeRoom 1 3 5 (some 2) (by decide) (by decide)
  have h2 := health_points_invariants powerupRoom 1 3 5 (some 2) (by decide) (by decide)
  exact ⟨h1.1 (by norm_num), h2.2.1, h1.2.2⟩

/-! C9: axis-separated movement. -/

/-- A rectangle fully inside the arena. -/
def rectInsideArena (r : Rect) : Prop :=
  0 ≤ r.x ∧ r.x + r.width ≤ arenaWidth ∧ 0 ≤ r.y ∧ r.y + r.height ≤ arenaHeight

instance (r : Rect) : Decidable (rectInsideArena r) := by
  unfold rectInsideArena
  infer_instance

/-- Specification-side acceptance of a displacement (C9's vocabulary): the
player's bounding square centered at `(cx, cy)` stays inside the arena and
overlaps no cover. -/
def moveAccepted (st : RoomState) (cx cy : ℚ) : Prop :=
  rectInsideArena (playerSquare cx cy) ∧
  ∀ c ∈ st.covers, ¬ checkRectCollision (playerSquare cx cy) c.toRect

instance (st : RoomState) (cx cy : ℚ) : Decidable (moveAccepted st cx cy) := by
  unfold moveAccepted
  infer_instance

lemma ite_nested {α : Sort _} (A B : Prop) [Decidable A] [Decidable B] (v w : α) :
    (if A then (if B then v else w) else w) = if A ∧ B then v else w := by
  by_cases hA : A <;> by_cases hB : B <;> simp [hA, hB]

lemma getPlayer_updatePlayer_self (st : RoomState) (pid : ℕ) (f : Player → Player)
    (hf : ∀ q, (f q).pid = q.pid) (p : Player) (hp : getPlayer st pid = some p) :
    getPlayer (updatePlayer st pid f) pid = some (f p) := by
  unfold updatePlayer
  have hg : ∀ q : Player, ((fun q => if q.pid = pid then f q else q) q).pid = q.pid := by
    intro q
    dsimp only
    split_ifs <;> simp [hf]
  rw [getPlayer_players_map st _ hg pid, hp, Option.map_some']
  show some (if p.pid = pid then f p else p) = some (f p)
  rw [if_pos (getPlayer_pid hp)]

/-- C9: movement is resolved axis-separated.  Under the standing invariant
that the player's current square is inside the arena (true of the start
positions and preserved by every move), the X displacement is accepted iff
the square at the new X with the old Y stays inside the arena and overlaps
no cover, and the Y displacement is then accepted independently at the
(possibly updated) X under the same test — so a diagonal move whose X
component is blocked still applies its Y component. -/
theorem movement_axis_separated (st : RoomState) (pid : ℕ) (dx dy deltaTime : ℚ)
    (p : Player) (hp : getPlayer st pid = some p)
    (harena : rectInsideArena (playerSquare p.x p.y)) :
    getPlayer (handlePlayerMove st pid dx dy deltaTime) pid =
      some { p with
        x := if moveAccepted st (p.x + dx * (playerSpeed * deltaTime)) p.y
             then p.x + dx * (playerSpeed * deltaTime) else p.x,
        y := if moveAccepted st
              (if moveAccepted st (p.x + dx * (playerSpeed * deltaTime)) p.y
               then p.x + dx * (playerSpeed * deltaTime) else p.x)
              (p.y + dy * (playerSpeed * deltaTime))
             then p.y + dy * (playerSpeed * deltaTime) else p.y } := by
  obtain ⟨ha1, ha2, ha3, ha4⟩ := harena
  unfold handlePlayerMove
  rw [hp]
  dsimp only
  have hX : (if 0 ≤ p.x + dx * (playerSpeed * deltaTime) - playerSize / 2 ∧
        p.x + dx * (playerSpeed * deltaTime) + playerSize / 2 ≤ arenaWidth then
      (if ∀ c ∈ st.covers,
          ¬ checkRectCollision
            (playerSquare (p.x + dx * (playerSpeed * deltaTime)) p.y) c.toRect then
        p.x + dx * (playerSpeed * deltaTime)
      else p.x)
    else p.x) =
      (if moveAccepted st (p.x + dx * (playerSpeed * deltaTime)) p.y
       then p.x + dx * (playerSpeed * deltaTime) else p.x) := by
    rw [ite_nested]
    refine if_congr ?_ rfl rfl
    unfold moveAccepted rectInsideArena playerSquare at *
    constructor
    · rintro ⟨⟨h1, h2⟩, h3⟩
      exact ⟨⟨h1, by linarith, ha3, ha4⟩, h3⟩
    · rintro ⟨⟨h1, h2, _, _⟩, h3⟩
      exact ⟨⟨h1, by linarith⟩, h3⟩
  rw [hX]
  have hx1b : 0 ≤ (if moveAccepted st (p.x + dx * (playerSpeed * deltaTime)) p.y
        then p.x + dx * (playerSpeed * deltaTime) else p.x) - playerSize / 2 ∧
      (if moveAccepted st (p.x + dx * (playerSpeed * deltaTime)) p.y
        then p.x + dx * (playerSpeed * deltaTime) else p.x) + playerSize / 2 ≤
        arenaWidth := by
    by_cases hacc : moveAccepted st (p.x + dx * (playerSpeed * deltaTime)) p.y
    · rw [if_pos hacc]
      obtain ⟨⟨h1, h2, _, _⟩, _⟩ := hacc
      unfold playerSquare at h1 h2
      dsimp only at h1 h2
      exact ⟨h1, by linarith⟩
    · rw [if_neg hacc]
      unfold playerSquare at ha1 ha2
      exact ⟨ha1, by linarith⟩
  have hY : (if 0 ≤ p.y + dy * (playerSpeed * deltaTime) - playerSize / 2 ∧
        p.y + dy * (playerSpeed * deltaTime) + playerSize / 2 ≤ arenaHeight then
      (if ∀ c ∈ st.covers,
          ¬ checkRectCollision
            (playerSquare
              (if moveAccepted st (p.x + dx * (playerSpeed * deltaTime)) p.y
               then p.x + dx * (playerSpeed * deltaTime) else p.x)
              (p.y + dy * (playerSpeed * deltaTime))) c.toRect then
        p.y + dy * (playerSpeed * deltaTime)
      else p.y)
    else p.y) =
      (if moveAccepted st
          (if moveAccepted st (p.x + dx * (playerSpeed * deltaTime)) p.y
           then p.x + dx * (playerSpeed * deltaTime) else p.x)
          (p.y + dy * (playerSpeed * deltaTime))
       then p.y + dy * (playerSpeed * deltaTime) else p.y) := by
    rw [ite_nested]
    refine if_congr ?_ rfl rfl
    unfold moveAccepted rectInsideArena playerSquare at *
    constructor
    · rintro ⟨⟨h1, h2⟩, h3⟩
      exact ⟨⟨hx1b.1, by linarith [hx1b.2], h1, by linarith⟩, h3⟩
    · rintro ⟨⟨_, _, h1, h2⟩, h3⟩
      exact ⟨⟨h1, by linarith⟩, h3⟩
  rw [hY]
  refine getPlayer_updatePlayer_self st pid _ ?_ p hp
  intro q
  rfl

/-- The occupant used in the C9 witness, standing at (100, 100). -/
def slidePlayer : Player := mkPlayer 1 100 100 100 0 0

/-- A room with a single cover just to the right of `slidePlayer`, blocking
a +10 move on the X axis but not on the Y axis. -/
def slideRoom : RoomState :=
  { mkRoom [slidePlayer] true none with covers := [mkCover 120 50 60 100 "block"] }

/-- C9 witness: a concrete diagonal move (dx = dy = 1, deltaTime = 1/25,
displacement 10) against a cover that blocks only the X component — the X
displacement is rejected, the Y displacement still applies (wall slide). -/
theorem movement_axis_separated_witness :
    getPlayer slideRoom 1 = some slidePlayer ∧
    rectInsideArena (playerSquare slidePlayer.x slidePlayer.y) ∧
    ¬ moveAccepted slideRoom (slidePlayer.x + 1 * (playerSpeed * (1 / 25)))
      slidePlayer.y ∧
    moveAccepted slideRoom slidePlayer.x
      (slidePlayer.y + 1 * (playerSpeed * (1 / 25))) ∧
    getPlayer (handlePlayerMove slideRoom 1 1 1 (1 / 25)) 1 =
      some { slidePlayer with x := 100, y := 110 } := by
  have harena : rectInsideArena (playerSquare slidePlayer.x slidePlayer.y) := by
    norm_num [rectInsideArena, playerSquare, slidePlayer, mkPlayer, playerSize,
      arenaWidth, arenaHeight]
  have hxn : ¬ moveAccepted slideRoom (slidePlayer.x + 1 * (playerSpeed * (1 / 25)))
      slidePlayer.y := by
    norm_num [moveAccepted, rectInsideArena, playerSquare, slideRoom, slidePlayer,
      mkRoom, mkPlayer, mkCover, Cover.toRect, checkRectCollision, playerSpeed,
      playerSize, arenaWidth, arenaHeight]
  have hyp : moveAccepted slideRoom slidePlayer.x
      (slidePlayer.y + 1 * (playerSpeed * (1 / 25))) := by
    norm_num [moveAccepted, rectInsideArena, playerSquare, slideRoom, slidePlayer,
      mkRoom, mkPlayer, mkCover, Cover.toRect, checkRectCollision, playerSpeed,
      playerSize, arenaWidth, arenaHeight]
  refine ⟨rfl, harena, hxn, hyp, ?_⟩
  rw [movement_axis_separated slideRoom 1 1 1 (1 / 25) slidePlayer rfl harena,
    if_neg hxn, if_pos hyp]
  norm_num [slidePlayer, mkPlayer, playerSpeed]

/-! C6: explosion falloff, and C8: cover removal. -/

lemma explosiveRadius_real : (explosiveRadius : ℝ) = 100 := by
  norm_num [explosiveRadius]

lemma explosiveDamage_real : ((explosiveDamage : ℤ) : ℝ) = 20 := by
  norm_num [explosiveDamage]

/-- C6: for an occupant at Euclidean distance `d` from an explosion center,
the damage `explode` applies is `⌊base · (1 − d/radius)⌋` when `d < radius`
(that floor is never negative there, and when it is 0 nothing is applied,
which is the same damage), zero when `d ≥ radius` (at `d = radius` the
formula itself floors 0, beyond it the radius gate fires), never negative,
and monotonically non-increasing in the distance. -/
theorem explosion_falloff (d e : ℝ) (hd : 0 ≤ d) :
    (d < (explosiveRadius : ℝ) → appliedExplosionDamage d = explosionDamageAt d) ∧
    ((explosiveRadius : ℝ) ≤ d → appliedExplosionDamage d = 0) ∧
    0 ≤ appliedExplosionDamage d ∧
    (d ≤ e → appliedExplosionDamage e ≤ appliedExplosionDamage d) := by
  have hr : (explosiveRadius : ℝ) = 100 := explosiveRadius_real
  have hb : ((explosiveDamage : ℤ) : ℝ) = 20 := explosiveDamage_real
  refine ⟨?_, ?_, ?_, ?_⟩
  · intro hlt
    have hnn : 0 ≤ explosionDamageAt d := by
      unfold explosionDamageAt
      rw [Int.floor_nonneg]
      rw [hr] at hlt
      rw [hb, hr]
      nlinarith
    unfold appliedExplosionDamage
    rw [if_pos (le_of_lt hlt)]
    split_ifs with hpos
    · rfl
    · omega
  · intro hge
    unfold appliedExplosionDamage
    split_ifs with hle hpos
    · have hde : d = (explosiveRadius : ℝ) := le_antisymm hle hge
      have : explosionDamageAt d = 0 := by
        unfold explosionDamageAt
        rw [hde, hr, hb]
        norm_num
      omega
    · rfl
    · rfl
  · unfold appliedExplosionDamage
    split_ifs with h1 h2 <;> omega
  · intro hde
    have hfmono : explosionDamageAt e ≤ explosionDamageAt d := by
      unfold explosionDamageAt
      apply Int.floor_le_floor
      rw [hb, hr]
      have he0 : 0 ≤ e := le_trans hd hde
      nlinarith
    unfold appliedExplosionDamage
    split_ifs with he1 he2 hd1 hd2 <;> first | omega | linarith

/-- C6 witness: the falloff theorem at distances 50 and 75 with the base 20
and radius 100 of the configuration: at distance 50 the applied damage is
the formula value, `⌊20 · (1 − 50/100)⌋ = 10`, and the damage at 75 is no
larger. -/
theorem explosion_falloff_witness :
    (0 : ℝ) ≤ 50 ∧ (50 : ℝ) < (explosiveRadius : ℝ) ∧ ((50 : ℝ) ≤ 75) ∧
    appliedExplosionDamage 50 = explosionDamageAt 50 ∧
    explosionDamageAt 50 = 10 ∧
    appliedExplosionDamage 75 ≤ appliedExplosionDamage 50 := by
  have h := explosion_falloff 50 75 (by norm_num)
  refine ⟨by norm_num, by rw [explosiveRadius_real]; norm_num, by norm_num,
    h.1 (by rw [explosiveRadius_real]; norm_num), ?_, h.2.2.2 (by norm_num)⟩
  unfold explosionDamageAt
  rw [explosiveRadius_real, explosiveDamage_real]
  norm_num

lemma foldl_covers (f : RoomState → ℕ → RoomState)
    (hf : ∀ s i, (f s i).covers = s.covers) :
    ∀ (l : List ℕ) (s : RoomState), (l.foldl f s).covers = s.covers := by
  intro l
  induction l with
  | nil => intro s; rfl
  | cons i t ih =>
    intro s
    rw [List.foldl_cons, ih, hf]

lemma explodeDamagePlayers_covers (st : RoomState) (x y : ℚ) (ownerId : ℕ) :
    (explodeDamagePlayers st x y ownerId).covers = st.covers := by
  unfold explodeDamagePlayers
  apply foldl_covers
  intro s i
  cases h : getPlayer s i with
  | none => rfl
  | some p =>
    dsimp only
    split_ifs <;> first | rw [hitPlayer_covers] | rfl

/-- C8: an explosion at `(x, y)` removes exactly those covers whose
rectangle's closest point to the center lies at (square-root) distance
strictly less than the radius, and the surviving covers are the original
records in order (all-or-nothing removal: a cover is never modified, only
kept or dropped). -/
theorem explosion_cover_removal (st : RoomState) (x y : ℚ) (ownerId : ℕ) (c : Cover) :
    ((explode st x y ownerId).covers).Sublist st.covers ∧
    (c ∈ (explode st x y ownerId).covers ↔
      c ∈ st.covers ∧
        ¬ Real.sqrt ((coverExplosionDistSq c x y : ℝ)) < (explosiveRadius : ℝ)) := by
  have hcov : (explode st x y ownerId).covers = removeCovers st.covers x y := by
    unfold explode
    dsimp only
    rw [explodeDamagePlayers_covers]
  have hsq : Real.sqrt ((coverExplosionDistSq c x y : ℝ)) < (explosiveRadius : ℝ) ↔
      coverExplosionDistSq c x y < explosiveRadius ^ 2 := by
    rw [Real.sqrt_lt' (by rw [explosiveRadius_real]; norm_num)]
    constructor
    · intro h
      exact_mod_cast h
    · intro h
      exact_mod_cast h
  constructor
  · rw [hcov]
    exact List.filter_sublist _
  · rw [hcov]
    unfold removeCovers
    rw [List.mem_filter]
    simp [hsq]

/-! C10: no direct self-damage; explosions do include their owner. -/

lemma projectilePlayerHit_ne (players : List Player) (proj : Projectile) (t : ℕ)
    (h : projectilePlayerHit players proj = some t) : t ≠ proj.ownerId := by
  unfold projectilePlayerHit at h
  cases hf : players.find? (fun p =>
      !(p.pid == proj.ownerId) && checkProjectilePlayerCollision proj p) with
  | none => rw [hf] at h; cases h
  | some q =>
    rw [hf, Option.map_some'] at h
    have hpred := List.find?_some hf
    simp only [Bool.and_eq_true, Bool.not_eq_true', beq_eq_false_iff_ne] at hpred
    injection h with h1
    subst h1
    exact hpred.1

lemma laserFindHit_ne (shooterId : ℕ) (cx cy : ℝ) :
    ∀ (l : List Player) (t : ℕ),
      laserFindHit shooterId cx cy l = some t → t ≠ shooterId := by
  intro l
  induction l with
  | nil =>
    intro t h
    cases h
  | cons p rest ih =>
    intro t h
    unfold laserFindHit at h
    split_ifs at h with h1 h2
    · exact ih t h
    · injection h with h3
      subst h3
      exact h1
    · exact ih t h

lemma laserScanAux_ne (covers : List Cover) (players : List Player) (shooterId : ℕ)
    (sx sy angle : ℝ) :
    ∀ (fuel i t : ℕ),
      laserScanAux covers players shooterId sx sy angle i fuel = some t →
      t ≠ shooterId := by
  intro fuel
  induction fuel with
  | zero =>
    intro i t h
    cases h
  | succ n ih =>
    intro i t h
    unfold laserScanAux at h
    dsimp only at h
    split at h
    · cases h
    · split at h
      · cases h
      · split at h
        next q hq =>
          injection h with h3
          subst h3
          exact laserFindHit_ne _ _ _ players _ hq
        next hq =>
          exact ih (i + 1) t h

/-- The occupant and room used for the C10 epicenter evaluation. -/
def epicenterRoom : RoomState :=
  mkRoom [mkPlayer 1 500 500 100 0 0] true none

/-- C10: (1) the projectile-vs-player resolution of the tick loop never
damages the projectile's owner — for a non-explosive projectile the
owner's health and shield are unchanged by the collision step, because the
scan skips the owner; (2) a laser shot never damages its shooter — the
raycast's player check skips the shooter, so the shooter's health and
shield are unchanged by `shootLaser` for every angle; (3) explosion area
damage DOES include the explosion's owner: an explosive detonating at its
owner's own position costs the owner the full 20 base damage (health 100
drops to 80). -/
theorem no_self_damage_except_explosion :
    (∀ (st : RoomState) (proj : Projectile),
      proj.kind ≠ some ShotType.explosive →
      (getPlayer (applyProjectilePlayerCollision st proj) proj.ownerId).map
          (fun p => (p.health, p.shield)) =
        (getPlayer st proj.ownerId).map (fun p => (p.health, p.shield))) ∧
    (∀ (st : RoomState) (shooterId : ℕ) (angle : ℝ),
      (getPlayer (shootLaser st shooterId angle) shooterId).map
          (fun p => (p.health, p.shield)) =
        (getPlayer st shooterId).map (fun p => (p.health, p.shield))) ∧
    (getPlayer (explode epicenterRoom 500 500 1) 1).map (fun p => p.health) =
      some 80 := by
  refine ⟨?_, ?_, ?_⟩
  · intro st proj hk
    unfold applyProjectilePlayerCollision
    cases hs : projectilePlayerHit st.players proj with
    | none => rfl
    | some t =>
      dsimp only
      rw [if_neg (fun hcontra => hk hcontra.1)]
      exact getPlayer_hitPlayer_other st t proj.damage (some proj.ownerId)
        proj.ownerId (Ne.symm (projectilePlayerHit_ne st.players proj t hs))
  · intro st shooterId angle
    unfold shootLaser
    cases hp : getPlayer st shooterId with
    | none =>
      show (getPlayer st shooterId).map (fun p => (p.health, p.shield)) =
        Option.map (fun p => (p.health, p.shield)) (none : Option Player)
      rw [hp]
    | some shooter =>
      show (getPlayer (match laserScanAux st.covers st.players shooterId
            ((shooter.x : ℝ)) ((shooter.y : ℝ)) angle 1 100 with
          | some t => hitPlayer st t laserDamage (some shooterId)
          | none => st) shooterId).map (fun p => (p.health, p.shield)) =
        Option.map (fun p => (p.health, p.shield)) (some shooter)
      cases hscan : laserScanAux st.covers st.players shooterId
          ((shooter.x : ℝ)) ((shooter.y : ℝ)) angle 1 100 with
      | none =>
        show (getPlayer st shooterId).map (fun p => (p.health, p.shield)) =
          Option.map (fun p => (p.health, p.shield)) (some shooter)
        rw [hp]
      | some t =>
        show (getPlayer (hitPlayer st t laserDamage (some shooterId)) shooterId).map
            (fun p => (p.health, p.shield)) =
          Option.map (fun p => (p.health, p.shield)) (some shooter)
        rw [getPlayer_hitPlayer_other st t laserDamage (some shooterId) shooterId
          (Ne.symm (laserScanAux_ne st.covers st.players shooterId _ _ angle 100 1 t
            hscan)), hp]
  · have hsqrt0 : Real.sqrt (((0 : ℚ) : ℝ)) = 0 := by
      norm_num [Real.sqrt_zero]
    have hdmg : explosionDamageAt (Real.sqrt (((0 : ℚ) : ℝ))) = 20 := by
      rw [hsqrt0]
      unfold explosionDamageAt
      rw [explosiveRadius_real, explosiveDamage_real]
      norm_num
    have hgetcov : ∀ (s : RoomState) (cv : List Cover) (k : ℕ),
        getPlayer { s with covers := cv } k = getPlayer s k := fun _ _ _ => rfl
    unfold explode
    dsimp only
    rw [hgetcov]
    unfold explodeDamagePlayers
    have hplayers :
        ({ epicenterRoom with
          explosions := epicenterRoom.explosions ++
            [{ x := 500, y := 500, radius := explosiveRadius }] } :
            RoomState).players.map (fun p => p.pid) = [1] := rfl
    rw [hplayers, List.foldl_cons, List.foldl_nil]
    have hget1 : getPlayer
        ({ epicenterRoom with
          explosions := epicenterRoom.explosions ++
            [{ x := 500, y := 500, radius := explosiveRadius }] } : RoomState) 1 =
        some (mkPlayer 1 500 500 100 0 0) := rfl
    rw [hget1]
    dsimp only
    have hdsq : ((mkPlayer 1 500 500 100 0 0).x - 500) ^ 2 +
        ((mkPlayer 1 500 500 100 0 0).y - 500) ^ 2 = (0 : ℚ) := by
      norm_num [mkPlayer]
    rw [hdsq]
    rw [if_pos (by norm_num [explosiveRadius])]
    rw [hdmg]
    rw [if_pos (by norm_num)]
    rfl

/-- A plain (non-explosive) projectile owned by occupant 1. -/
def strayProjectile : Projectile :=
  { ownerId := 1, x := 300, y := 1000, vx := 600, vy := 0, damage := 5,
    kind := none, createdAt := 0, exploded := false }

/-- C10 witness: the theorem applied to a concrete room — a plain
projectile's collision step and a laser shot at angle 0 both leave their
owner's health and shield untouched. -/
theorem no_self_damage_except_explosion_witness :
    strayProjectile.kind ≠ some ShotType.explosive ∧
    (getPlayer (applyProjectilePlayerCollision activeRoom strayProjectile)
        strayProjectile.ownerId).map (fun p => (p.health, p.shield)) =
      (getPlayer activeRoom strayProjectile.ownerId).map
        (fun p => (p.health, p.shield)) ∧
    (getPlayer (shootLaser activeRoom 1 0) 1).map (fun p => (p.health, p.shield)) =
      (getPlayer activeRoom 1).map (fun p => (p.health, p.shield)) := by
  refine ⟨by decide, ?_, ?_⟩
  · exact no_self_damage_except_explosion.1 activeRoom strayProjectile (by decide)
  · exact no_self_damage_except_explosion.2.1 activeRoom 1 0

end Shellshock
